import Mathlib

/-!
Verification of the audio-joiner pipeline (files yt_audio_mix.py and
streamlit_app.py) against its natural-language specification.

The Python code is shallowly embedded over ℚ, String and List:

* The tempo decomposition in tempo_adjust (yt_audio_mix.py lines 67-77)
  only ever divides the running value by 2.0 or by 0.5.  Both divisions
  are exact in IEEE double precision, so the float state of the Python
  loop coincides with the exact rational computation; the embedding
  therefore uses ℚ.  The final element is formatted with six decimal
  places, which rounds the value to the nearest multiple of 10⁻⁶ with
  ties going to an even last digit; rNearestEven / round6 model that.
* Paths are modelled as the POSIX strings the code builds; each call of
  the helper run(...) (an external ffmpeg or yt-dlp process) becomes an
  ExtCall event, and both pipeline drivers are modelled as functions
  returning the ordered event trace together with either the assembled
  timeline or the error message they raise.
-/

/-- Rounding to the nearest integer with ties to even, as used by the
Python format specifier with a fixed number of decimals. -/
def rNearestEven (x : ℚ) : ℤ :=
  if x - ⌊x⌋ < 1/2 then ⌊x⌋
  else if 1/2 < x - ⌊x⌋ then ⌊x⌋ + 1
  else if ⌊x⌋ % 2 = 0 then ⌊x⌋ else ⌊x⌋ + 1

/-- Rounding to six decimal places: the value written by the Python
format string atempo=...:.6f for the final chain element. -/
def round6 (x : ℚ) : ℚ := (rNearestEven (x * 1000000) : ℚ) / 1000000

/-- First loop of tempo_adjust (yt_audio_mix.py lines 73-74): while the
running value exceeds 2.0, emit the factor 2.0 and divide by 2.0.
Returns the emitted factors together with the final running value. -/
def halveChain (s : ℚ) : List ℚ × ℚ :=
  if h : 2 < s then
    let r := halveChain (s / 2)
    (2 :: r.1, r.2)
  else ([], s)
termination_by ⌈s⌉₊
decreasing_by
  have h3 : 3 ≤ ⌈s⌉₊ := by
    have h4 : (2 : ℕ) < ⌈s⌉₊ := Nat.lt_ceil.mpr (by exact_mod_cast h)
    omega
  have hle : s ≤ (⌈s⌉₊ : ℚ) := Nat.le_ceil s
  have hstep : s / 2 ≤ ((⌈s⌉₊ - 1 : ℕ) : ℚ) := by
    push_cast [Nat.cast_sub (by omega : 1 ≤ ⌈s⌉₊)]
    have h5 : ((⌈s⌉₊ : ℚ)) ≥ 3 := by exact_mod_cast h3
    linarith
  have h6 := Nat.ceil_le.mpr hstep
  omega

/-- Second loop of tempo_adjust (yt_audio_mix.py lines 75-76): while the
running value is below 0.5, emit the factor 0.5 and divide by 0.5.  The
positivity conjunct in the guard makes the recursion well founded; it
never changes the behaviour reachable from the program, because
tempo_adjust rejects non-positive speeds before the loops run, and for a
positive start the running value stays positive. -/
def doubleChain (s : ℚ) : List ℚ × ℚ :=
  if h : 0 < s ∧ s < 1/2 then
    let r := doubleChain (s / (1/2))
    ((1/2 : ℚ) :: r.1, r.2)
  else ([], s)
termination_by ⌈s⁻¹⌉₊
decreasing_by
  have h2i : 2 < s⁻¹ := by
    rw [lt_inv_comm₀ (by norm_num) h.1]
    linarith [h.2]
  have heq : (s / (1/2))⁻¹ = s⁻¹ / 2 := by field_simp
  rw [heq]
  have h3 : 3 ≤ ⌈s⁻¹⌉₊ := by
    have h4 : (2 : ℕ) < ⌈s⁻¹⌉₊ := Nat.lt_ceil.mpr (by exact_mod_cast h2i)
    omega
  have hle : s⁻¹ ≤ (⌈s⁻¹⌉₊ : ℚ) := Nat.le_ceil _
  have hstep : s⁻¹ / 2 ≤ ((⌈s⁻¹⌉₊ - 1 : ℕ) : ℚ) := by
    push_cast [Nat.cast_sub (by omega : 1 ≤ ⌈s⁻¹⌉₊)]
    have h5 : ((⌈s⁻¹⌉₊ : ℚ)) ≥ 3 := by exact_mod_cast h3
    linarith
  have h6 := Nat.ceil_le.mpr hstep
  omega

/-- Tempo filter chain of tempo_adjust (yt_audio_mix.py lines 71-77):
both loops followed by the remainder rounded to six decimal places. -/
def tempoFilters (speed : ℚ) : List ℚ :=
  let p1 := halveChain speed
  let p2 := doubleChain p1.2
  p1.1 ++ p2.1 ++ [round6 p2.2]

/-- Guard of tempo_adjust (yt_audio_mix.py lines 68-69): non-positive
speeds are rejected with SystemExit before any filter is built. -/
def tempo_adjust (speed : ℚ) : Except String (List ℚ) :=
  if speed ≤ 0 then Except.error "--speed must be > 0"
  else Except.ok (tempoFilters speed)

/-- Whitespace test matching the characters the Python str.strip method
removes from ASCII text: space, tab, newline, carriage return, vertical
tab and form feed. -/
def isSpaceChar (c : Char) : Bool :=
  c = ' ' || c = '\t' || c = '\n' || c = '\r' || c = '\x0b' || c = '\x0c'

/-- Model of the Python str.strip method: remove leading and trailing
whitespace. -/
def pyStrip (s : String) : String :=
  String.mk (((s.toList.dropWhile isSpaceChar).reverse.dropWhile isSpaceChar).reverse)

/-- Predicate of the CLI filter (yt_audio_mix.py line 122): an argument
is dropped when its stripped form is a backslash, a slash, a pipe or
empty. -/
def cliStray (u : String) : Bool :=
  pyStrip u = "\\" || pyStrip u = "/" || pyStrip u = "|" || pyStrip u = ""

/-- CLI input cleaning (yt_audio_mix.py line 122): the argument list is
truncated to the first four entries BEFORE the stray filter runs. -/
def cli_clean_urls (argsUrls : List String) : List String :=
  (argsUrls.take 4).filter (fun u => !(cliStray u))

/-- UI input cleaning (streamlit_app.py lines 58-61).  The Python
function receives raw text and splits it into lines; the embedding takes
the resulting list of lines directly.  Each line is stripped, empty and
placeholder lines are dropped, and only then is the list capped at four
entries. -/
def validate_and_clean_urls (rawLines : List String) : List String :=
  let lines := rawLines.map pyStrip
  let urls := lines.filter (fun l => !(l = "") && !(l = "/" || l = "\\" || l = "|"))
  urls.take 4

/-- Background selection for a track slot (yt_audio_mix.py lines 175-176
and streamlit_app.py lines 150-151): the asset at clamped position
min(idx, count) - 1.  The Python code indexes the list directly; both
call sites guarantee a non-empty list, so the default value of getD is
never used there. -/
def selectBg (bgs : List String) (idx : ℕ) : String :=
  bgs.getD (min idx bgs.length - 1) ""

/-- Model of the Python str.lower method over ASCII strings. -/
def pyLower (s : String) : String := String.mk (s.toList.map Char.toLower)

/-- Final component of a POSIX path: the characters after the last
slash, as produced by the name property of pathlib.PurePath. -/
def pathName (p : String) : String :=
  String.mk ((p.toList.reverse.takeWhile (fun c => c ≠ '/')).reverse)

/-- Extension of a path, as produced by the suffix property of
pathlib.PurePath: the substring of the final component from its last
dot, empty when the name has no dot or the last dot is its first or
last character. -/
def pathSuffix (p : String) : String :=
  let cs := (pathName p).toList
  let k := (cs.reverse.takeWhile (fun c => c ≠ '.')).length
  if k = cs.length then ""
  else if k = 0 then ""
  else if cs.length - k - 1 = 0 then ""
  else String.mk (cs.drop (cs.length - k - 1))

/-- Codec arguments appended by concat_with_ffmpeg (yt_audio_mix.py
lines 99-105), keyed on the lowercased output extension. -/
def concat_codec_args (ext : String) : List String :=
  if ext = ".mp3" then ["-c:a", "libmp3lame", "-b:a", "192k"]
  else if ext = ".m4a" ∨ ext = ".aac" then ["-c:a", "aac", "-b:a", "192k"]
  else ["-c:a", "pcm_s16le"]

/-- Full final concatenation command vector built by concat_with_ffmpeg
(yt_audio_mix.py lines 97-107). -/
def concat_with_ffmpeg (listFile outputPath : String) : List String :=
  ["ffmpeg", "-y", "-f", "concat", "-safe", "0", "-i", listFile]
    ++ concat_codec_args (pyLower (pathSuffix outputPath)) ++ [outputPath]

/-- Event recording one invocation of an external process through the
helper run(...): silence generation, yt-dlp download, PCM
normalization or re-encoding, tempo filtering, and final concatenation.
Each constructor corresponds to one run(...) call site of the source. -/
inductive ExtCall where
  | silenceGen (duration : ℚ) (out : String)
  | ytdlpDownload (url : String) (target : String)
  | pcmNormalize (src : String) (out : String)
  | tempoFilterRun (filters : List ℚ) (src : String) (out : String)
  | concatRun (listFile : String) (codec : List String) (out : String)
  deriving DecidableEq, Repr

/-- Name of the per-slot re-encoded background copy
(yt_audio_mix.py line 177 and streamlit_app.py line 153). -/
def bgPcmName (work : String) (idx : ℕ) : String :=
  work ++ "/background_" ++ toString idx ++ ".wav"

/-- Loop of yt_audio_mix.py lines 173-183 (identical in
streamlit_app.py lines 148-159): for each track, starting at 1-based
index idx, re-encode the clamped background asset to a per-slot PCM
copy and extend the timeline with background, track, silence, track.
Returns the re-encode events and the assembled timeline order. -/
def orderStage (work silenceN : String) (bgs : List String) :
    ℕ → List String → List ExtCall × List String
  | _, [] => ([], [])
  | idx, t :: rest =>
    let r := orderStage work silenceN bgs (idx + 1) rest
    (ExtCall.pcmNormalize (selectBg bgs idx) (bgPcmName work idx) :: r.1,
     bgPcmName work idx :: t :: silenceN :: t :: r.2)

/-- Manifest writer build_concat_list (yt_audio_mix.py lines 92-95):
one record per segment, in order, each of the form file, a space, the
quoted POSIX path, and a newline. -/
def build_concat_list : List String → String
  | [] => ""
  | p :: rest => "file \x27" ++ p ++ "\x27\n" ++ build_concat_list rest

/-- Computable absolute value on ℚ, as computed by the Python builtin
abs; kept separate from the Mathlib lattice form so that concrete runs
evaluate. -/
def ratAbs (q : ℚ) : ℚ := if q < 0 then -q else q

/-- Download loop of yt_audio_mix.py lines 156-159 (same in
streamlit_app.py lines 119-122) with download_audio, lines 48-65: for
each source URL, in slot order, one yt-dlp invocation and one ffmpeg
PCM normalization producing the slot fixed track.  The glob lookup of
the downloaded file and external failures of the tools are
external-tool behaviour, so the download is modelled as succeeding and
the downloaded artifact is identified by its slot path. -/
def downloadStage (work : String) : ℕ → List String → List ExtCall × List String
  | _, [] => ([], [])
  | i, url :: rest =>
    let slot := work ++ "/video" ++ toString i
    let fixedPath := slot ++ ".fixed.wav"
    let r := downloadStage work (i + 1) rest
    (ExtCall.ytdlpDownload url slot :: ExtCall.pcmNormalize slot fixedPath :: r.1,
     fixedPath :: r.2)

/-- Tempo loop body of yt_audio_mix.py lines 163-167 (same in
streamlit_app.py lines 126-130): one tempo_adjust invocation per fixed
track, producing the sped track names carrying the rendered speed. -/
def tempoStage (work speedTag : String) (speed : ℚ) :
    ℕ → List String → List ExtCall × List String
  | _, [] => ([], [])
  | i, t :: rest =>
    let out := work ++ "/video" ++ toString i ++ "_x" ++ speedTag ++ ".wav"
    let r := tempoStage work speedTag speed (i + 1) rest
    (ExtCall.tempoFilterRun (tempoFilters speed) t out :: r.1, out :: r.2)

/-- Tempo block shared by yt_audio_mix.py lines 161-169 and
streamlit_app.py lines 124-132: when the speed differs from 1.0 by more
than 1e-9 every fixed track is tempo-adjusted, otherwise the fixed
tracks are used unchanged.  speedTag stands for the decimal rendering
of the float speed that Python interpolates into the file names. -/
def spedStage (work speedTag : String) (speed : ℚ) (fixed : List String) :
    List ExtCall × List String :=
  if 1/1000000000 < ratAbs (speed - 1) then tempoStage work speedTag speed 1 fixed
  else ([], fixed)

/-- CLI pipeline main (yt_audio_mix.py lines 109-197), modelled from
the cleaning of the URL arguments onwards.  The background search walks
the filesystem without spawning processes, so the found asset list is a
parameter.  The function returns the ordered trace of external
invocations together with the assembled timeline, or the SystemExit
message of the first configuration failure.  When the speed guard takes
the tempo branch with a non-positive speed, the first tempo_adjust call
raises after silence generation and the downloads have already run. -/
def cliMain (work speedTag : String) (argsUrls : List String)
    (speed silenceDur bgVolumeDb : ℚ) (backgroundPaths : List String)
    (outPath : String) : List ExtCall × Except String (List String) :=
  let clean_urls := cli_clean_urls argsUrls
  if clean_urls = [] then
    ([], Except.error "Provide at least one YouTube URL (up to four).")
  else if backgroundPaths = [] then
    ([], Except.error "No background_audiofile_0N found in --bg-dir.")
  else
    let silenceN := work ++ "/silence.wav"
    let silEv := ExtCall.silenceGen silenceDur silenceN
    let dl := downloadStage work 1 clean_urls
    if 1/1000000000 < ratAbs (speed - 1) ∧ speed ≤ 0 then
      (silEv :: dl.1, Except.error "--speed must be > 0")
    else
      let sp := spedStage work speedTag speed dl.2
      let og := orderStage work silenceN backgroundPaths 1 sp.2
      let listFile := work ++ "/concat_list.txt"
      (silEv :: dl.1 ++ sp.1 ++ og.1
         ++ [ExtCall.concatRun listFile
              (concat_codec_args (pyLower (pathSuffix outPath))) outPath],
       Except.ok og.2)

/-- UI pipeline driver _run_pipeline (streamlit_app.py lines 87-166).
The speed is validated first; the raw urls list is downloaded as given;
the uploadedFiles parameter is accepted but, exactly as in the source,
never read; with no background asset found and at least one track, the
negative clamped index raises the Python IndexError message at timeline
assembly.  The result carries the assembled timeline. -/
def uiRunPipeline (work speedTag : String) (urls uploadedFiles : List String)
    (speed silenceSeconds bgVolumeDb : ℚ) (bgPaths : List String)
    (outputExt : String) : List ExtCall × Except String (List String) :=
  if speed ≤ 0 then ([], Except.error "Speed must be greater than 0")
  else
    let silenceN := work ++ "/silence.wav"
    let silEv := ExtCall.silenceGen silenceSeconds silenceN
    let dl := downloadStage work 1 urls
    let sp := spedStage work speedTag speed dl.2
    if sp.2 ≠ [] ∧ bgPaths = [] then
      (silEv :: dl.1 ++ sp.1, Except.error "list index out of range")
    else
      let og := orderStage work silenceN bgPaths 1 sp.2
      let outputPath := work ++ "/final_output" ++ outputExt
      let listFile := work ++ "/concat_list.txt"
      (silEv :: dl.1 ++ sp.1 ++ og.1
         ++ [ExtCall.concatRun listFile
              (concat_codec_args (pyLower (pathSuffix outputPath))) outputPath],
       Except.ok og.2)

/-- Test whether an event is a tempo-adjustment invocation. -/
def isTempoCall : ExtCall → Bool
  | ExtCall.tempoFilterRun _ _ _ => true
  | _ => false

theorem halveChain_spec (s : ℚ) :
    (∀ x ∈ (halveChain s).1, x = 2)
  ∧ (halveChain s).1.prod * (halveChain s).2 = s
  ∧ (halveChain s).2 ≤ 2
  ∧ (0 < s → 0 < (halveChain s).2) := by
  induction s using halveChain.induct with
  | case1 s h ih =>
    unfold halveChain
    rw [dif_pos h]
    obtain ⟨ih1, ih2, ih3, ih4⟩ := ih
    refine ⟨?_, ?_, ?_, ?_⟩
    · intro x hx
      rcases List.mem_cons.mp hx with hx | hx
      · exact hx
      · exact ih1 x hx
    · simp only [List.prod_cons]
      rw [mul_assoc, ih2]
      ring
    · exact ih3
    · intro _
      exact ih4 (by linarith)
  | case2 s h =>
    unfold halveChain
    rw [dif_neg h]
    exact ⟨by simp, by simp, le_of_not_lt h, fun hp => hp⟩

theorem doubleChain_spec (s : ℚ) :
    (∀ x ∈ (doubleChain s).1, x = 1/2)
  ∧ (doubleChain s).1.prod * (doubleChain s).2 = s
  ∧ (0 < s → 1/2 ≤ (doubleChain s).2)
  ∧ (0 < s → s ≤ 2 → (doubleChain s).2 ≤ 2) := by
  induction s using doubleChain.induct with
  | case1 s h ih =>
    unfold doubleChain
    rw [dif_pos h]
    obtain ⟨h1, h2⟩ := h
    obtain ⟨ih1, ih2, ih3, ih4⟩ := ih
    refine ⟨?_, ?_, ?_, ?_⟩
    · intro x hx
      rcases List.mem_cons.mp hx with hx | hx
      · exact hx
      · exact ih1 x hx
    · simp only [List.prod_cons]
      rw [mul_assoc, ih2]
      ring
    · intro _
      exact ih3 (by positivity)
    · intro _ _
      exact ih4 (by positivity) (by rw [div_div_eq_mul_div]; linarith)
  | case2 s h =>
    unfold doubleChain
    rw [dif_neg h]
    push_neg at h
    refine ⟨by simp, by simp, fun hp => h hp, fun _ h2 => h2⟩

theorem rNearestEven_bounds (x : ℚ) :
    x - 1/2 ≤ (rNearestEven x : ℚ) ∧ (rNearestEven x : ℚ) ≤ x + 1/2 := by
  have h1 := Int.floor_le x
  have h2 := Int.lt_floor_add_one x
  unfold rNearestEven
  split_ifs with ha hb hc <;> constructor <;> push_cast <;> linarith

theorem round6_close (x : ℚ) : |round6 x - x| ≤ 1/2000000 := by
  obtain ⟨hl, hr⟩ := rNearestEven_bounds (x * 1000000)
  rw [abs_le]
  unfold round6
  constructor <;> [linarith; linarith]

theorem round6_range (x : ℚ) (hl : 1/2 ≤ x) (hr : x ≤ 2) :
    1/2 ≤ round6 x ∧ round6 x ≤ 2 := by
  obtain ⟨bl, br⟩ := rNearestEven_bounds (x * 1000000)
  have hzl : (499999 : ℤ) < rNearestEven (x * 1000000) := by
    have : (499999 : ℚ) < (rNearestEven (x * 1000000) : ℚ) := by linarith
    exact_mod_cast this
  have hzr : rNearestEven (x * 1000000) < (2000001 : ℤ) := by
    have : (rNearestEven (x * 1000000) : ℚ) < 2000001 := by linarith
    exact_mod_cast this
  unfold round6
  constructor
  · have : (500000 : ℚ) ≤ (rNearestEven (x * 1000000) : ℚ) := by exact_mod_cast hzl
    linarith
  · have : (rNearestEven (x * 1000000) : ℚ) ≤ 2000000 := by
      exact_mod_cast Int.lt_add_one_iff.mp hzr
    linarith

/-- Claim C1: for every speed > 0 the tempo filter chain built by
tempo_adjust has a product equal to speed within 1e-6 relative
tolerance, and every emitted element except possibly the last lies in
the closed interval from 0.5 to 2.0. -/
theorem tempo_chain_product_and_range (speed : ℚ) (h : 0 < speed) :
    |(tempoFilters speed).prod - speed| ≤ speed * (1/1000000)
  ∧ ∀ x ∈ (tempoFilters speed).dropLast, 1/2 ≤ x ∧ x ≤ 2 := by
  obtain ⟨m1, p1, le1, pos1⟩ := halveChain_spec speed
  obtain ⟨m2, p2, ge2, le2⟩ := doubleChain_spec (halveChain speed).2
  have hpos1 : 0 < (halveChain speed).2 := pos1 h
  have hge2 : 1/2 ≤ (doubleChain (halveChain speed).2).2 := ge2 hpos1
  have hP1 : 0 < (halveChain speed).1.prod :=
    List.prod_pos (fun a ha => by rw [m1 a ha]; norm_num)
  have hP2 : 0 < (doubleChain (halveChain speed).2).1.prod :=
    List.prod_pos (fun a ha => by rw [m2 a ha]; norm_num)
  constructor
  · have hprod : (tempoFilters speed).prod
        = (halveChain speed).1.prod * (doubleChain (halveChain speed).2).1.prod
          * round6 (doubleChain (halveChain speed).2).2 := by
      unfold tempoFilters
      simp [List.prod_append, mul_assoc]
    set P := (halveChain speed).1.prod * (doubleChain (halveChain speed).2).1.prod
      with hPdef
    set s2 := (doubleChain (halveChain speed).2).2 with hs2
    have hPs2 : P * s2 = speed := by
      rw [hPdef, mul_assoc, p2, p1]
    have hPpos : 0 < P := mul_pos hP1 hP2
    have hclose := round6_close s2
    rw [hprod]
    have hsplit : P * round6 s2 - speed = P * (round6 s2 - s2) := by
      rw [mul_sub, hPs2]
    rw [hsplit, abs_mul, abs_of_pos hPpos]
    have h1 : P * |round6 s2 - s2| ≤ P * (1/2000000) :=
      mul_le_mul_of_nonneg_left hclose (le_of_lt hPpos)
    have h2 : P * (1/2000000) ≤ 2 * speed * (1/2000000) := by nlinarith
    linarith
  · intro x hx
    have hdrop : (tempoFilters speed).dropLast
        = (halveChain speed).1 ++ (doubleChain (halveChain speed).2).1 := by
      unfold tempoFilters
      exact List.dropLast_concat
    rw [hdrop] at hx
    rcases List.mem_append.mp hx with hx | hx
    · rw [m1 x hx]
      norm_num
    · rw [m2 x hx]
      norm_num

/-- Concrete instance of claim C1 at speed 3. -/
theorem tempo_chain_product_and_range_witness :
    (0 : ℚ) < 3
  ∧ (|(tempoFilters 3).prod - 3| ≤ 3 * (1/1000000)
      ∧ ∀ x ∈ (tempoFilters 3).dropLast, 1/2 ≤ x ∧ x ≤ 2) :=
  ⟨by norm_num, tempo_chain_product_and_range 3 (by norm_num)⟩

/-- Claim C10: for every speed > 0 the final element of the tempo filter
chain, the rounded remainder emitted after both loops, itself lies in
the closed interval from 0.5 to 2.0, rounding included. -/
theorem tempo_chain_final_in_range (speed : ℚ) (h : 0 < speed) :
    1/2 ≤ (tempoFilters speed).getLastD 0
  ∧ (tempoFilters speed).getLastD 0 ≤ 2 := by
  obtain ⟨m1, p1, le1, pos1⟩ := halveChain_spec speed
  obtain ⟨m2, p2, ge2, le2⟩ := doubleChain_spec (halveChain speed).2
  have hpos1 : 0 < (halveChain speed).2 := pos1 h
  have hlast : (tempoFilters speed).getLastD 0
      = round6 (doubleChain (halveChain speed).2).2 := by
    unfold tempoFilters
    exact List.getLastD_concat _ _ _
  rw [hlast]
  exact round6_range _ (ge2 hpos1) (le2 hpos1 le1)

/-- Concrete instance of claim C10 at the extreme speed 0.0001. -/
theorem tempo_chain_final_in_range_witness :
    (0 : ℚ) < 1/10000
  ∧ (1/2 ≤ (tempoFilters (1/10000)).getLastD 0
      ∧ (tempoFilters (1/10000)).getLastD 0 ≤ 2) :=
  ⟨by norm_num, tempo_chain_final_in_range (1/10000) (by norm_num)⟩

/-- Claim C4 counterexample: on the input named by the claim, the CLI
input resolver (yt_audio_mix.py line 122) returns only one entry, not
the four the claim promises, because it truncates to the first four raw
arguments before filtering. -/
theorem input_resolver_cli_counterexample :
    cli_clean_urls ["", "  ", "/", "validURL", "another", "extra1", "extra2"] = ["validURL"]
  ∧ cli_clean_urls ["", "  ", "/", "validURL", "another", "extra1", "extra2"]
      ≠ ["validURL", "another", "extra1", "extra2"] := by
  constructor
  · decide
  · decide

/-- Claim C4 (amended): the UI resolver strips, filters placeholders and
whitespace-only lines, and only then caps the list at four entries,
returning exactly the four named URLs on the example input; the CLI
resolver instead truncates to the first four raw arguments before
filtering, returning only one entry on the same input.  Both resolvers
return at most four entries and never return a placeholder. -/
theorem input_resolver_amended (rawLines argsUrls : List String) :
    validate_and_clean_urls ["", "  ", "/", "validURL", "another", "extra1", "extra2"]
      = ["validURL", "another", "extra1", "extra2"]
  ∧ cli_clean_urls ["", "  ", "/", "validURL", "another", "extra1", "extra2"] = ["validURL"]
  ∧ (validate_and_clean_urls rawLines).length ≤ 4
  ∧ (∀ u ∈ validate_and_clean_urls rawLines,
      u ≠ "" ∧ u ≠ "/" ∧ u ≠ "\\" ∧ u ≠ "|")
  ∧ (cli_clean_urls argsUrls).length ≤ 4
  ∧ (∀ u ∈ cli_clean_urls argsUrls,
      pyStrip u ≠ "" ∧ pyStrip u ≠ "/" ∧ pyStrip u ≠ "\\" ∧ pyStrip u ≠ "|") := by
  refine ⟨by decide, by decide, ?_, ?_, ?_, ?_⟩
  · unfold validate_and_clean_urls
    simp only [List.length_take]
    omega
  · intro u hu
    unfold validate_and_clean_urls at hu
    have h2 := List.of_mem_filter (List.mem_of_mem_take hu)
    simp only [Bool.and_eq_true, Bool.not_eq_true', decide_eq_false_iff_not,
      Bool.or_eq_false_iff] at h2
    tauto
  · have hlen : (argsUrls.take 4).length ≤ 4 := by
      simp only [List.length_take]
      omega
    exact le_trans (List.length_filter_le _ _) hlen
  · intro u hu
    unfold cli_clean_urls at hu
    have h2 := List.of_mem_filter hu
    simp only [cliStray, Bool.not_eq_true', Bool.or_eq_false_iff,
      decide_eq_false_iff_not] at h2
    tauto

/-- Concrete instance of the amended claim C4: the first URL survives
the UI resolver and is neither empty nor a placeholder. -/
theorem input_resolver_amended_witness :
    ("validURL" ∈ validate_and_clean_urls
        ["", "  ", "/", "validURL", "another", "extra1", "extra2"])
  ∧ ("validURL" ≠ "" ∧ "validURL" ≠ "/" ∧ "validURL" ≠ "\\" ∧ "validURL" ≠ "|") :=
  ⟨by decide,
   (input_resolver_amended
      ["", "  ", "/", "validURL", "another", "extra1", "extra2"] []).2.2.2.1
     "validURL" (by decide)⟩

/-- Claim C3: the background asset chosen for 1-based track index idx
from a non-empty asset list is the one at position min(idx, count) - 1;
once idx reaches the asset count every later track reuses the last
asset, and with two assets the slots one to four map to the assets one,
two, two, two. -/
theorem background_clamp (bgs : List String) (idx : ℕ) (h1 : 1 ≤ idx) (h2 : bgs ≠ []) :
    (idx ≤ bgs.length → selectBg bgs idx = bgs.getD (idx - 1) "")
  ∧ (bgs.length ≤ idx → selectBg bgs idx = bgs.getLast h2)
  ∧ (List.range 4).map (fun i => selectBg ["b1", "b2"] (i + 1)) = ["b1", "b2", "b2", "b2"] := by
  have hlen : 0 < bgs.length := List.length_pos.mpr h2
  refine ⟨?_, ?_, by decide⟩
  · intro hle
    unfold selectBg
    rw [min_eq_left hle]
  · intro hge
    unfold selectBg
    rw [min_eq_right hge]
    rw [List.getD_eq_getElem _ _ (by omega), List.getLast_eq_getElem]

/-- Concrete instance of claim C3: with two assets, track three takes
the last asset. -/
theorem background_clamp_witness :
    (["b1", "b2"] : List String).length ≤ 3
  ∧ selectBg ["b1", "b2"] 3 = (["b1", "b2"] : List String).getLast (by decide) :=
  ⟨by decide,
   (background_clamp ["b1", "b2"] 3 (by norm_num) (by decide)).2.1 (by decide)⟩

/-- Claim C5: the codec arguments of the final concatenation command are
determined solely by the lowercased output extension: .mp3 selects the
lossy MP3 codec at 192 kbit/s, .m4a or .aac selects AAC at 192 kbit/s,
and every other extension selects uncompressed 16-bit PCM. -/
theorem output_codec_selection (listFile out : String) :
    (pyLower (pathSuffix out) = ".mp3" →
      concat_with_ffmpeg listFile out
        = ["ffmpeg", "-y", "-f", "concat", "-safe", "0", "-i", listFile,
           "-c:a", "libmp3lame", "-b:a", "192k", out])
  ∧ ((pyLower (pathSuffix out) = ".m4a" ∨ pyLower (pathSuffix out) = ".aac") →
      concat_with_ffmpeg listFile out
        = ["ffmpeg", "-y", "-f", "concat", "-safe", "0", "-i", listFile,
           "-c:a", "aac", "-b:a", "192k", out])
  ∧ (pyLower (pathSuffix out) ≠ ".mp3" → pyLower (pathSuffix out) ≠ ".m4a" →
     pyLower (pathSuffix out) ≠ ".aac" →
      concat_with_ffmpeg listFile out
        = ["ffmpeg", "-y", "-f", "concat", "-safe", "0", "-i", listFile,
           "-c:a", "pcm_s16le", out]) := by
  refine ⟨?_, ?_, ?_⟩
  · intro h
    unfold concat_with_ffmpeg concat_codec_args
    rw [h, if_pos rfl]
    rfl
  · intro h
    have hne : pyLower (pathSuffix out) ≠ ".mp3" := by
      rcases h with h | h <;> rw [h] <;> decide
    unfold concat_with_ffmpeg concat_codec_args
    rw [if_neg hne, if_pos h]
    rfl
  · intro hA hB hC
    unfold concat_with_ffmpeg concat_codec_args
    rw [if_neg hA, if_neg (by tauto)]
    rfl

/-- Concrete instance of claim C5: an uppercase .MP3 extension is
lowercased and selects the MP3 codec, so selection is case-insensitive. -/
theorem output_codec_selection_witness :
    pyLower (pathSuffix "/tmp/o.MP3") = ".mp3"
  ∧ concat_with_ffmpeg "list.txt" "/tmp/o.MP3"
      = ["ffmpeg", "-y", "-f", "concat", "-safe", "0", "-i", "list.txt",
         "-c:a", "libmp3lame", "-b:a", "192k", "/tmp/o.MP3"] :=
  ⟨by decide, (output_codec_selection "list.txt" "/tmp/o.MP3").1 (by decide)⟩

theorem orderStage_length (work sil : String) (bgs : List String) :
    ∀ (tracks : List String) (k : ℕ),
      ((orderStage work sil bgs k tracks).2).length = 4 * tracks.length := by
  intro tracks
  induction tracks with
  | nil => intro k; simp [orderStage]
  | cons t ts ih =>
    intro k
    simp only [orderStage, List.length_cons, ih]
    ring

theorem orderStage_slot (work sil : String) (bgs : List String) :
    ∀ (tracks : List String) (k i : ℕ) (hi : i < tracks.length),
      (((orderStage work sil bgs k tracks).2).drop (4 * i)).take 4
        = [bgPcmName work (k + i), tracks.get ⟨i, hi⟩, sil, tracks.get ⟨i, hi⟩] := by
  intro tracks
  induction tracks with
  | nil => intro k i hi; simp at hi
  | cons t ts ih =>
    intro k i hi
    cases i with
    | zero =>
      simp [orderStage]
    | succ j =>
      have h4 : 4 * (j + 1) = 4 * j + 1 + 1 + 1 + 1 := by ring
      have hk : k + 1 + j = k + (j + 1) := by ring
      simp only [orderStage, h4, List.drop_succ_cons]
      rw [ih (k + 1) j (by simpa using hi)]
      rw [hk]
      simp

/-- Claim C2: a run with n tracks produces a timeline of exactly 4n
segment paths, the four entries of slot i being the per-slot background
copy, the track, the silence segment, and the same track again; the
manifest serializes a timeline of two segments a and b to exactly the
two quoted file records. -/
theorem timeline_manifest (work silenceN : String) (bgs tracks : List String)
    (a b : String) (h1 : 1 ≤ tracks.length) (h4 : tracks.length ≤ 4) :
    ((orderStage work silenceN bgs 1 tracks).2).length = 4 * tracks.length
  ∧ (∀ i (hi : i < tracks.length),
      (((orderStage work silenceN bgs 1 tracks).2).drop (4 * i)).take 4
        = [bgPcmName work (i + 1), tracks.get ⟨i, hi⟩, silenceN, tracks.get ⟨i, hi⟩])
  ∧ build_concat_list [a, b]
      = "file \x27" ++ a ++ "\x27\n" ++ ("file \x27" ++ b ++ "\x27\n") := by
  refine ⟨orderStage_length work silenceN bgs tracks 1, ?_, ?_⟩
  · intro i hi
    have hs := orderStage_slot work silenceN bgs tracks 1 i hi
    rw [Nat.add_comm 1 i] at hs
    exact hs
  · simp [build_concat_list]

/-- Concrete instance of claim C2 with one track. -/
theorem timeline_manifest_witness :
    (1 ≤ ([("t" : String)]).length ∧ ([("t" : String)]).length ≤ 4)
  ∧ (((orderStage "/w" "/s" ["b"] 1 ["t"]).2).length = 4 * ([("t" : String)]).length
    ∧ (∀ i (hi : i < ([("t" : String)]).length),
        (((orderStage "/w" "/s" ["b"] 1 ["t"]).2).drop (4 * i)).take 4
          = [bgPcmName "/w" (i + 1), ([("t" : String)]).get ⟨i, hi⟩, "/s",
             ([("t" : String)]).get ⟨i, hi⟩])
    ∧ build_concat_list ["/a", "/b"]
        = "file \x27" ++ "/a" ++ "\x27\n" ++ ("file \x27" ++ "/b" ++ "\x27\n")) :=
  ⟨⟨by decide, by decide⟩,
   timeline_manifest "/w" "/s" ["b"] ["t"] "/a" "/b" (by decide) (by decide)⟩

theorem ratAbs_eq_abs (q : ℚ) : ratAbs q = |q| := by
  unfold ratAbs
  split_ifs with h
  · rw [abs_of_neg h]
  · rw [abs_of_nonneg (le_of_not_lt h)]

theorem downloadStage_no_tempo (work : String) :
    ∀ (urls : List String) (k : ℕ), ∀ e ∈ (downloadStage work k urls).1,
      isTempoCall e = false := by
  intro urls
  induction urls with
  | nil => intro k e he; simp [downloadStage] at he
  | cons u us ih =>
    intro k e he
    simp only [downloadStage, List.mem_cons] at he
    rcases he with h | h | h
    · rw [h]; rfl
    · rw [h]; rfl
    · exact ih (k + 1) e h

theorem orderStage_no_tempo (work sil : String) (bgs : List String) :
    ∀ (tracks : List String) (k : ℕ), ∀ e ∈ (orderStage work sil bgs k tracks).1,
      isTempoCall e = false := by
  intro tracks
  induction tracks with
  | nil => intro k e he; simp [orderStage] at he
  | cons t ts ih =>
    intro k e he
    simp only [orderStage, List.mem_cons] at he
    rcases he with h | h
    · rw [h]; rfl
    · exact ih (k + 1) e h

/-- Claim C7: when the speed is within 1e-9 of 1.0 the tempo stage is
the identity, the sped-track list is the fixed-track list itself, and
neither pipeline ever issues a tempo command. -/
theorem speed_one_identity (work speedTag : String) (urls files fixed : List String)
    (speed sil g : ℚ) (bgs : List String) (o : String)
    (h : |speed - 1| ≤ 1/1000000000) :
    spedStage work speedTag speed fixed = ([], fixed)
  ∧ (∀ e ∈ (cliMain work speedTag urls speed sil g bgs o).1, isTempoCall e = false)
  ∧ (∀ e ∈ (uiRunPipeline work speedTag urls files speed sil g bgs o).1,
      isTempoCall e = false) := by
  have hng : ¬ (1/1000000000 < ratAbs (speed - 1)) := by
    rw [ratAbs_eq_abs]
    exact not_lt.mpr h
  have hsped : ∀ fx : List String, spedStage work speedTag speed fx = ([], fx) := by
    intro fx
    unfold spedStage
    rw [if_neg hng]
  refine ⟨hsped fixed, ?_, ?_⟩
  · unfold cliMain
    by_cases hc : cli_clean_urls urls = []
    · rw [if_pos hc]
      intro e he
      simp at he
    · rw [if_neg hc]
      by_cases hb : bgs = []
      · rw [if_pos hb]
        intro e he
        simp at he
      · rw [if_neg hb,
          if_neg (by tauto : ¬(1/1000000000 < ratAbs (speed - 1) ∧ speed ≤ 0))]
        simp only [hsped, List.cons_append, List.nil_append, List.append_nil]
        refine List.forall_mem_cons.mpr ⟨rfl, ?_⟩
        refine List.forall_mem_append.mpr ⟨List.forall_mem_append.mpr ⟨?_, ?_⟩, ?_⟩
        · exact downloadStage_no_tempo work _ 1
        · exact orderStage_no_tempo work _ bgs _ 1
        · intro e he
          rw [List.mem_singleton.mp he]
          rfl
  · unfold uiRunPipeline
    by_cases hs : speed ≤ 0
    · rw [if_pos hs]
      intro e he
      simp at he
    · rw [if_neg hs]
      simp only [hsped, List.cons_append, List.nil_append, List.append_nil]
      by_cases hbg : (downloadStage work 1 urls).2 ≠ [] ∧ bgs = []
      · rw [if_pos hbg]
        refine List.forall_mem_cons.mpr ⟨rfl, ?_⟩
        exact downloadStage_no_tempo work _ 1
      · rw [if_neg hbg]
        refine List.forall_mem_cons.mpr ⟨rfl, ?_⟩
        refine List.forall_mem_append.mpr ⟨List.forall_mem_append.mpr ⟨?_, ?_⟩, ?_⟩
        · exact downloadStage_no_tempo work _ 1
        · exact orderStage_no_tempo work _ bgs _ 1
        · intro e he
          rw [List.mem_singleton.mp he]
          rfl

/-- Concrete instance of claim C7 at speed exactly 1. -/
theorem speed_one_identity_witness :
    |(1 : ℚ) - 1| ≤ 1/1000000000
  ∧ (spedStage "/w" "1.0" 1 ["f"] = ([], ["f"])
    ∧ (∀ e ∈ (cliMain "/w" "1.0" ["u"] 1 5 (-6) ["/b.wav"] "/o.wav").1,
        isTempoCall e = false)
    ∧ (∀ e ∈ (uiRunPipeline "/w" "1.0" ["u"] [] 1 5 (-6) ["/b.wav"] "/o.wav").1,
        isTempoCall e = false)) :=
  ⟨by norm_num,
   speed_one_identity "/w" "1.0" ["u"] [] ["f"] 1 5 (-6) ["/b.wav"] "/o.wav"
     (by norm_num)⟩

/-- Claim C6 counterexample: a run with speed -1, one valid URL and one
background asset ends in the speed configuration error, yet its trace
already contains external invocations (silence generation and the
download), so the failure is not raised before any external process is
spawned. -/
theorem config_error_counterexample :
    (cliMain "/w" "-1.0" ["u"] (-1) 5 (-6) ["/b.wav"] "/o.wav").2
        = Except.error "--speed must be > 0"
  ∧ (cliMain "/w" "-1.0" ["u"] (-1) 5 (-6) ["/b.wav"] "/o.wav").1 ≠ [] := by
  have hstep : cliMain "/w" "-1.0" ["u"] (-1) 5 (-6) ["/b.wav"] "/o.wav"
      = (ExtCall.silenceGen 5 ("/w" ++ "/silence.wav")
           :: (downloadStage "/w" 1 (cli_clean_urls ["u"])).1,
         Except.error "--speed must be > 0") := by
    unfold cliMain
    rw [if_neg (by decide : ¬ (cli_clean_urls ["u"] = [])),
        if_neg (by decide : ¬ ((["/b.wav"] : List String) = [])),
        if_pos (⟨by norm_num [ratAbs], by norm_num⟩ :
          1/1000000000 < ratAbs ((-1 : ℚ) - 1) ∧ (-1 : ℚ) ≤ 0)]
  rw [hstep]
  exact ⟨rfl, by simp [downloadStage]⟩

/-- Claim C6 (amended): zero usable sources and zero background assets
make the CLI pipeline fail with its configuration error before any
external process is spawned, and a non-positive speed makes the UI
pipeline fail before any spawn; the CLI detects a non-positive speed
only at the first tempo adjustment, after silence generation and the
downloads have run, as the counterexample shows. -/
theorem config_error_fail_fast (work speedTag : String) (urls files : List String)
    (speed sil g : ℚ) (bgs : List String) (o : String) :
    (cli_clean_urls urls = [] →
      cliMain work speedTag urls speed sil g bgs o
        = ([], Except.error "Provide at least one YouTube URL (up to four)."))
  ∧ (cli_clean_urls urls ≠ [] → bgs = [] →
      cliMain work speedTag urls speed sil g bgs o
        = ([], Except.error "No background_audiofile_0N found in --bg-dir."))
  ∧ (speed ≤ 0 →
      uiRunPipeline work speedTag urls files speed sil g bgs o
        = ([], Except.error "Speed must be greater than 0")) := by
  refine ⟨?_, ?_, ?_⟩
  · intro hc
    unfold cliMain
    rw [if_pos hc]
  · intro hc hb
    unfold cliMain
    rw [if_neg hc, if_pos hb]
  · intro hs
    unfold uiRunPipeline
    rw [if_pos hs]

/-- Concrete instances of the amended claim C6: a placeholder-only
argument list fails before any spawn, and a zero speed fails the UI
pipeline before any spawn. -/
theorem config_error_fail_fast_witness :
    cliMain "/w" "1.0" ["/"] 1 5 (-6) ["/b.wav"] "/o.wav"
      = ([], Except.error "Provide at least one YouTube URL (up to four).")
  ∧ uiRunPipeline "/w" "1.0" ["u"] [] 0 5 (-6) ["/b.wav"] "/o.wav"
      = ([], Except.error "Speed must be greater than 0") :=
  ⟨(config_error_fail_fast "/w" "1.0" ["/"] [] 1 5 (-6) ["/b.wav"] "/o.wav").1
     (by decide),
   (config_error_fail_fast "/w" "1.0" ["u"] [] 0 5 (-6) ["/b.wav"] "/o.wav").2.2
     (by norm_num)⟩

/-- Claim C9: two runs differing only in the background gain setting
produce identical traces and results in both pipelines; the gain is
accepted as configuration but never applied, and no volume filter
exists in the trace vocabulary at all. -/
theorem background_gain_not_applied (work speedTag : String) (urls files : List String)
    (speed sil g1 g2 : ℚ) (bgs : List String) (o : String) :
    cliMain work speedTag urls speed sil g1 bgs o
      = cliMain work speedTag urls speed sil g2 bgs o
  ∧ uiRunPipeline work speedTag urls files speed sil g1 bgs o
      = uiRunPipeline work speedTag urls files speed sil g2 bgs o :=
  ⟨rfl, rfl⟩

/-- Claim C8: the UI pipeline ignores its uploaded-files argument
entirely, so two runs differing only in the uploaded files coincide,
and a run whose only source is an uploaded file produces an empty
timeline: no local asset is ever normalized or placed in the timeline,
contradicting the documented upload feature. -/
theorem uploaded_files_ignored (work speedTag : String)
    (urls files1 files2 : List String) (speed sil g : ℚ) (bgs : List String)
    (ext : String) :
    uiRunPipeline work speedTag urls files1 speed sil g bgs ext
      = uiRunPipeline work speedTag urls files2 speed sil g bgs ext
  ∧ (uiRunPipeline "/w" "1.0" [] ["upload.mp3"] 1 5 (-6) ["/b/bg.wav"] ".mp3").2
      = Except.ok [] := by
  refine ⟨rfl, ?_⟩
  norm_num [uiRunPipeline, spedStage, downloadStage, orderStage, ratAbs]

